import Mathlib

/-!
Verification of the utility module of lsmRack (src/unnamed/part_000),
a collection of helper functions for a 3D rack visualization.

The functions under study are:
* `getWorldHalfExtents` — given a rack object, reads its footprint
  (`userData.config.width`, `userData.config.depth`) and its rotation about
  the vertical axis (`rotation.y`) and returns the axis-aligned bounding
  half-extents of the rotated footprint in the world horizontal plane.
* `sanitizeInput` — escapes HTML-special characters in a string, returning
  the empty string for non-string inputs.

Numbers are modelled as real numbers (`ℝ`); `Math.cos` / `Math.sin` /
`Math.abs` become `Real.cos` / `Real.sin` / `|·|`.
-/

namespace LsmRack

/-- Rack configuration, with the field shape checked by `validateRackConfig`
in the source (`rackId`, `width`, `depth`, `height`, `levels`, `cells`). -/
structure RackConfig where
  rackId : String
  width : ℝ
  depth : ℝ
  height : ℝ
  levels : ℝ
  cells : ℝ

/-- The `userData` bag attached to a rack object. -/
structure UserData where
  config : RackConfig

/-- Euler angles of an object (`rotation.x`, `rotation.y`, `rotation.z`). -/
structure Euler where
  x : ℝ
  y : ℝ
  z : ℝ

/-- World position of an object. -/
structure Vec3 where
  x : ℝ
  y : ℝ
  z : ℝ

/-- The rack object (`THREE.Object3D`) as far as the utility module reads it:
`userData.config`, `rotation`, plus further fields (`position`, `name`) that
`getWorldHalfExtents` never touches. -/
structure Rack where
  userData : UserData
  rotation : Euler
  position : Vec3
  name : String

/-- The `{halfX, halfZ}` record returned by `getWorldHalfExtents`. -/
structure HalfExtents where
  halfX : ℝ
  halfZ : ℝ

/-- `getWorldHalfExtents(rack)` from the source:
```
const w = rack.userData.config.width;
const d = rack.userData.config.depth;
const θ = rack.rotation.y;
const hx = w / 2, hz = d / 2;
const halfX = Math.abs(Math.cos(θ) * hx) + Math.abs(Math.sin(θ) * hz);
const halfZ = Math.abs(Math.sin(θ) * hx) + Math.abs(Math.cos(θ) * hz);
return { halfX, halfZ };
```
Note the absolute value is applied to the products `cos(θ) * hx` and
`sin(θ) * hz`, not to the trigonometric factors alone. -/
noncomputable def getWorldHalfExtents (rack : Rack) : HalfExtents :=
  let w := rack.userData.config.width
  let d := rack.userData.config.depth
  let θ := rack.rotation.y
  let hx := w / 2
  let hz := d / 2
  { halfX := |Real.cos θ * hx| + |Real.sin θ * hz|
    halfZ := |Real.sin θ * hx| + |Real.cos θ * hz| }

/-- Convenience constructor: a rack with the three fields the projector
reads, everything else fixed. -/
noncomputable def mkRack (w d θ : ℝ) : Rack :=
  { userData := { config := { rackId := "R", width := w, depth := d,
                              height := 0, levels := 0, cells := 0 } }
    rotation := { x := 0, y := θ, z := 0 }
    position := { x := 0, y := 0, z := 0 }
    name := "" }

/-- Both returned components are sums of absolute values, hence nonnegative. -/
lemma getWorldHalfExtents_nonneg (rack : Rack) :
    0 ≤ (getWorldHalfExtents rack).halfX ∧ 0 ≤ (getWorldHalfExtents rack).halfZ := by
  constructor <;> exact add_nonneg (abs_nonneg _) (abs_nonneg _)

/-- C1: for nonnegative width `w` and depth `d` and any rotation angle `θ`,
`getWorldHalfExtents` returns
`halfX = |cos θ| * (w / 2) + |sin θ| * (d / 2)` and
`halfZ = |sin θ| * (w / 2) + |cos θ| * (d / 2)`. -/
theorem getWorldHalfExtents_eq_abs_trig_combination (w d θ : ℝ)
    (hw : 0 ≤ w) (hd : 0 ≤ d) :
    (getWorldHalfExtents (mkRack w d θ)).halfX
        = |Real.cos θ| * (w / 2) + |Real.sin θ| * (d / 2) ∧
    (getWorldHalfExtents (mkRack w d θ)).halfZ
        = |Real.sin θ| * (w / 2) + |Real.cos θ| * (d / 2) := by
  have hw2 : (0:ℝ) ≤ w / 2 := by positivity
  have hd2 : (0:ℝ) ≤ d / 2 := by positivity
  constructor <;>
    simp [getWorldHalfExtents, mkRack, abs_mul, abs_of_nonneg hw2, abs_of_nonneg hd2]

/-- C1 witness: at width 4, depth 2, angle 0 the formula holds concretely. -/
theorem getWorldHalfExtents_eq_abs_trig_combination_witness :
    (getWorldHalfExtents (mkRack 4 2 0)).halfX
        = |Real.cos 0| * ((4:ℝ) / 2) + |Real.sin 0| * ((2:ℝ) / 2) ∧
    (getWorldHalfExtents (mkRack 4 2 0)).halfZ
        = |Real.sin 0| * ((4:ℝ) / 2) + |Real.cos 0| * ((2:ℝ) / 2) :=
  getWorldHalfExtents_eq_abs_trig_combination 4 2 0 (by norm_num) (by norm_num)

/-- A JavaScript value as passed to `sanitizeInput`: either a string, or some
non-string value (`typeof str !== 'string'`). -/
inductive JSValue where
  | str (s : String)
  | num (n : ℝ)
  | boolean (b : Bool)
  | nullV
  | undef
deriving Inhabited

/-- Whether `typeof v === 'string'`. -/
def JSValue.isString : JSValue → Bool
  | .str _ => true
  | _ => false

/-- The `entities` lookup with the `|| char` fallback of the replacement
callback in `sanitizeInput`, yielding the characters substituted for `c`:
```
const entities = { '<': '&lt;', '>': '&gt;', '"': '&quot;',
                   "'": '&#39;', '&': '&amp;' };
return entities[char] || char;
```
The apostrophe character is written `Char.ofNat 39`. -/
def escChars (c : Char) : List Char :=
  if c = '<' then "&lt;".data
  else if c = '>' then "&gt;".data
  else if c = '"' then "&quot;".data
  else if c = Char.ofNat 39 then "&#39;".data
  else if c = '&' then "&amp;".data
  else [c]

/-- `sanitizeInput(str)` from the source: non-strings map to `''`; a string is
rewritten by replacing every occurrence of a character of the class
`[<>'"&]` with its HTML entity (`str.replace(/[<>'"&]/g, ...)`, a
character-by-character global substitution). -/
def sanitizeInput : JSValue → String
  | .str s => ⟨s.data.flatMap escChars⟩
  | _ => ""

/-- Every character emitted by the replacement callback differs from the four
escaped specials `<`, `>`, `"` and the apostrophe (`Char.ofNat 39`). -/
lemma escChars_avoids_specials (c ch : Char) (h : ch ∈ escChars c) :
    ch ≠ '<' ∧ ch ≠ '>' ∧ ch ≠ '"' ∧ ch ≠ Char.ofNat 39 := by
  unfold escChars at h
  split_ifs at h with h₁ h₂ h₃ h₄ h₅ <;>
    first
      | (fin_cases h <;> decide)
      | (simp at h; subst h; exact ⟨h₁, h₂, h₃, h₄⟩)

/-- C2 counterexample: no input at all — in particular no input with negative
width or depth — makes the projector return a negative component: the claim
that some such input yields a negative `halfX` or `halfZ` is false, because
the source applies `Math.abs` to the products `cos(θ)*hx` and `sin(θ)*hz`. -/
theorem no_rack_yields_negative_component :
    ¬ ∃ rack : Rack, (getWorldHalfExtents rack).halfX < 0 ∨
        (getWorldHalfExtents rack).halfZ < 0 := by
  rintro ⟨rack, h | h⟩
  · exact absurd h (not_lt.2 (getWorldHalfExtents_nonneg rack).1)
  · exact absurd h (not_lt.2 (getWorldHalfExtents_nonneg rack).2)

/-- C2 (amended): the projector performs no validation and raises no error on
negative width or depth, but the absolute values in the formula make the
result nonnegative rather than negative: at width `-4`, depth `2`, angle `0`
it returns `halfX = 2`, `halfZ = 1`. -/
theorem getWorldHalfExtents_negative_width_not_rejected :
    (getWorldHalfExtents (mkRack (-4) 2 0)).halfX = 2 ∧
    (getWorldHalfExtents (mkRack (-4) 2 0)).halfZ = 1 := by
  constructor <;> norm_num [getWorldHalfExtents, mkRack, abs_of_nonpos]

/-- C3: for every width, depth and rotation angle, both components returned
by `getWorldHalfExtents` are nonnegative. -/
theorem getWorldHalfExtents_components_nonneg (rack : Rack) :
    0 ≤ (getWorldHalfExtents rack).halfX ∧
    0 ≤ (getWorldHalfExtents rack).halfZ :=
  getWorldHalfExtents_nonneg rack

/-- C4: for nonnegative width and depth, at rotation angle `0` the projector
returns exactly `halfX = w / 2` and `halfZ = d / 2`. -/
theorem getWorldHalfExtents_at_zero (w d : ℝ) (hw : 0 ≤ w) (hd : 0 ≤ d) :
    (getWorldHalfExtents (mkRack w d 0)).halfX = w / 2 ∧
    (getWorldHalfExtents (mkRack w d 0)).halfZ = d / 2 := by
  have hw2 : (0:ℝ) ≤ w / 2 := by positivity
  have hd2 : (0:ℝ) ≤ d / 2 := by positivity
  constructor <;>
    simp [getWorldHalfExtents, mkRack, abs_of_nonneg hw2, abs_of_nonneg hd2]

/-- C4 witness: at width 4, depth 2, angle 0 the projector returns `(2, 1)`. -/
theorem getWorldHalfExtents_at_zero_witness :
    (getWorldHalfExtents (mkRack 4 2 0)).halfX = (4:ℝ) / 2 ∧
    (getWorldHalfExtents (mkRack 4 2 0)).halfZ = (2:ℝ) / 2 :=
  getWorldHalfExtents_at_zero 4 2 (by norm_num) (by norm_num)

/-- C5: for nonnegative width and depth, at rotation angle `π / 2` the
half-extents swap: `halfX = d / 2` and `halfZ = w / 2` (exact over `ℝ`). -/
theorem getWorldHalfExtents_at_pi_div_two (w d : ℝ) (hw : 0 ≤ w) (hd : 0 ≤ d) :
    (getWorldHalfExtents (mkRack w d (Real.pi / 2))).halfX = d / 2 ∧
    (getWorldHalfExtents (mkRack w d (Real.pi / 2))).halfZ = w / 2 := by
  have hw2 : (0:ℝ) ≤ w / 2 := by positivity
  have hd2 : (0:ℝ) ≤ d / 2 := by positivity
  constructor <;>
    simp [getWorldHalfExtents, mkRack, Real.cos_pi_div_two, Real.sin_pi_div_two,
      abs_of_nonneg hw2, abs_of_nonneg hd2]

/-- C5 witness: at width 4, depth 2, angle `π / 2` the projector returns
`halfX = 1`, `halfZ = 2`: the half-extents swap. -/
theorem getWorldHalfExtents_at_pi_div_two_witness :
    (getWorldHalfExtents (mkRack 4 2 (Real.pi / 2))).halfX = (2:ℝ) / 2 ∧
    (getWorldHalfExtents (mkRack 4 2 (Real.pi / 2))).halfZ = (4:ℝ) / 2 :=
  getWorldHalfExtents_at_pi_div_two 4 2 (by norm_num) (by norm_num)

/-- C6: the projector is `π`-periodic in the rotation angle: for every width,
depth and angle `θ`, the result at `θ + π` equals the result at `θ`. -/
theorem getWorldHalfExtents_pi_periodic (w d θ : ℝ) :
    getWorldHalfExtents (mkRack w d (θ + Real.pi))
      = getWorldHalfExtents (mkRack w d θ) := by
  simp [getWorldHalfExtents, mkRack, Real.cos_add_pi, Real.sin_add_pi,
    neg_mul, abs_neg]

/-- C7: the projector is an even function of the rotation angle: for every
width, depth and angle `θ`, the result at `-θ` equals the result at `θ`. -/
theorem getWorldHalfExtents_even_in_angle (w d θ : ℝ) :
    getWorldHalfExtents (mkRack w d (-θ))
      = getWorldHalfExtents (mkRack w d θ) := by
  simp [getWorldHalfExtents, mkRack, Real.cos_neg, Real.sin_neg,
    neg_mul, abs_neg]

/-- C9: the projector depends only on `userData.config.width`,
`userData.config.depth` and `rotation.y`: two racks agreeing on those three
fields get equal `{halfX, halfZ}` records, whatever their other fields. -/
theorem getWorldHalfExtents_depends_only_on_inputs (r₁ r₂ : Rack)
    (hw : r₁.userData.config.width = r₂.userData.config.width)
    (hd : r₁.userData.config.depth = r₂.userData.config.depth)
    (hθ : r₁.rotation.y = r₂.rotation.y) :
    getWorldHalfExtents r₁ = getWorldHalfExtents r₂ := by
  simp [getWorldHalfExtents, hw, hd, hθ]

/-- C9 witness: two racks with the same width, depth and `rotation.y` but
different `rackId`, `height`, `rotation.x`, `position` and `name` give the
same result. -/
theorem getWorldHalfExtents_depends_only_on_inputs_witness :
    getWorldHalfExtents
        { userData := { config := { rackId := "A", width := 4, depth := 2,
                                    height := 3, levels := 5, cells := 6 } }
          rotation := { x := 1, y := 0, z := 2 }
          position := { x := 7, y := 8, z := 9 }
          name := "rackA" }
      = getWorldHalfExtents
        { userData := { config := { rackId := "B", width := 4, depth := 2,
                                    height := 30, levels := 50, cells := 60 } }
          rotation := { x := 10, y := 0, z := 20 }
          position := { x := 70, y := 80, z := 90 }
          name := "rackB" } :=
  getWorldHalfExtents_depends_only_on_inputs _ _ rfl rfl rfl

/-- C10: `sanitizeInput` always returns a string; non-string inputs map to
the empty string; on a string input the result contains none of `<`, `>`,
`"`, or the apostrophe, each occurrence of a special character having been
replaced by its HTML entity (`&lt;`, `&gt;`, `&quot;`, `&#39;`, and `&` by
`&amp;`), as the concrete conjunct illustrates on a string holding all five. -/
theorem sanitizeInput_spec :
    (∀ v : JSValue, v.isString = false → sanitizeInput v = "") ∧
    (∀ s : String, ∀ ch ∈ (sanitizeInput (JSValue.str s)).data,
        ch ≠ '<' ∧ ch ≠ '>' ∧ ch ≠ '"' ∧ ch ≠ Char.ofNat 39) ∧
    sanitizeInput (JSValue.str ⟨['a', '<', 'b', '>', '"', Char.ofNat 39, '&', 'c']⟩)
      = "a&lt;b&gt;&quot;&#39;&amp;c" := by
  refine ⟨?_, ?_, by decide⟩
  · intro v hv
    cases v <;> simp_all [sanitizeInput, JSValue.isString]
  · intro s ch hch
    have hch := List.mem_flatMap.mp hch
    obtain ⟨c, _, hc⟩ := hch
    exact escChars_avoids_specials c ch hc

/-- C10 witness: a non-string input yields `""`, and the character of the
output of sanitizing the string `"x"` is none of the four specials. -/
theorem sanitizeInput_spec_witness :
    sanitizeInput JSValue.undef = "" ∧
    ('x' ≠ '<' ∧ 'x' ≠ '>' ∧ 'x' ≠ '"' ∧ 'x' ≠ Char.ofNat 39) :=
  ⟨sanitizeInput_spec.1 JSValue.undef rfl,
   sanitizeInput_spec.2.1 "x" 'x' (by decide)⟩

end LsmRack
